import Mathlib

/-!
Verification of the OData client/server core against its specification.

The development shallowly embeds the relevant C++ sources:

* `odata/odatacpp-client/include/odata/codegen/odata_query_path_composer.h`
  (class `atrribute`, the filter expression builder),
* `odata/odatacpp-client/include/odata/codegen/odata_service_query.h`
  (class `odata_service_query`, the query execution coordinator),
* `odata/odatacpp-server/src/edm/edm_model.cpp`
  (`edm_schema::find_container` and the `edm_model::find_*` lookups),
* `odata/odatacpp-server/tests/functional/common_test/common_utility_test.cpp`
  (the behaviour of `split_string` and `print_double`, whose implementations
  live in a translation unit that is not part of the sources; those two are
  modelled from the specification and validated against the test fixtures).

Strings are Lean `String`s; the wide/narrow `string_t` distinction is
irrelevant to the properties checked here.  C++ `std::shared_ptr` results
become `Option`; a null pointer is `none`.
-/

/-! ## Filter expression builder (`odata_query_path_composer.h`)

Each member of class `atrribute` reads the accumulated text `_exp`, streams
the pieces shown in the source into a `stringstream`, stores the result back
into `_exp` and returns `*this`.  The pure text transform of each combinator
is embedded below; integer operands are rendered with `toString`, matching
`operator<<(stream, int)`. -/

/-- Text transform of `atrribute::operator&&`: streams `_exp`, the literal
`" and "`, then the right operand's `evaluate()`. -/
def andOp (e r : String) : String := e ++ " and " ++ r

/-- Text transform of `atrribute::operator||`. -/
def orOp (e r : String) : String := e ++ " or " ++ r

/-- Text transform of `atrribute::operator!`: prepends `"not "`. -/
def notOp (e : String) : String := "not " ++ e

/-- Text transform of `atrribute::operator|` (the list join): comma. -/
def joinOp (e r : String) : String := e ++ "," ++ r

/-- Text transform of `atrribute::operator==` on an already rendered operand. -/
def eqOp (e v : String) : String := e ++ " eq " ++ v

/-- Text transform of `atrribute::operator!=`. -/
def neOp (e v : String) : String := e ++ " ne " ++ v

/-- Text transform of `atrribute::operator>=`. -/
def geOp (e v : String) : String := e ++ " ge " ++ v

/-- Text transform of `atrribute::operator>`. -/
def gtOp (e v : String) : String := e ++ " gt " ++ v

/-- Text transform of `atrribute::operator<=`. -/
def leOp (e v : String) : String := e ++ " le " ++ v

/-- Text transform of `atrribute::operator<`. -/
def ltOp (e v : String) : String := e ++ " lt " ++ v

/-- Text transform of `atrribute::contains`:
`"contains" "(" _exp ",'" exp "')"`. -/
def containsOp (e arg : String) : String :=
  "contains" ++ "(" ++ e ++ ",'" ++ arg ++ "')"

/-- Text transform of `atrribute::concat`. -/
def concatOp (e arg : String) : String :=
  "concat" ++ "(" ++ e ++ ",'" ++ arg ++ "')"

/-- Text transform of `atrribute::startswith`. -/
def startswithOp (e arg : String) : String :=
  "startswith" ++ "(" ++ e ++ ",'" ++ arg ++ "')"

/-- Text transform of `atrribute::endswith`. -/
def endswithOp (e arg : String) : String :=
  "endswith" ++ "(" ++ e ++ ",'" ++ arg ++ "')"

/-- Text transform of `atrribute::tolower` exactly as written in the source:
`"tolower" "(" _exp "')"` — note the streamed closing piece is `"')"`,
an apostrophe followed by the parenthesis. -/
def tolowerOp (e : String) : String :=
  "tolower" ++ "(" ++ e ++ "')"

/-- Text transform of `atrribute::toupper`, closing with `"')"` as in the
source. -/
def toupperOp (e : String) : String :=
  "toupper" ++ "(" ++ e ++ "')"

/-- Text transform of `atrribute::trim`, closing with `"')"` as in the
source. -/
def trimOp (e : String) : String :=
  "trim" ++ "(" ++ e ++ "')"

/-- Text transform of the one-argument `atrribute::substring(int index)`:
`"substring" "(" _exp ",'" index "')"`. -/
def substringOp1 (e : String) (index : Int) : String :=
  "substring" ++ "(" ++ e ++ ",'" ++ toString index ++ "')"

/-- Text transform of the two-argument
`atrribute::substring(int index, int length)` exactly as written:
`"substring" "(" _exp ",'" index ",'" length "')"` — the piece streamed
between the two integers is `",'"`. -/
def substringOp2 (e : String) (index length : Int) : String :=
  "substring" ++ "(" ++ e ++ ",'" ++ toString index ++ ",'" ++
    toString length ++ "')"

/-- The protocol grammar rendering the specification prescribes for the three
unary string functions: `funcname(arg)` with no extra characters. -/
def unarySpecRender (funcname arg : String) : String :=
  funcname ++ "(" ++ arg ++ ")"

/-- The protocol grammar rendering the specification prescribes for the
two-argument substring: each integer argument individually single-quoted. -/
def substring2SpecRender (e : String) (index length : Int) : String :=
  "substring" ++ "(" ++ e ++ ",'" ++ toString index ++ "','" ++
    toString length ++ "')"

/-- Claim C1 (code bug): the source's `tolower`, `toupper` and `trim` do not
render the grammar `funcname(a)` claimed by the specification; each streams
the closing piece `"')"`, producing a stray apostrophe before the closing
parenthesis: on the accumulated text `"a"` they yield `"tolower(a')"`,
`"toupper(a')"` and `"trim(a')"` instead of `"tolower(a)"`, `"toupper(a)"`
and `"trim(a)"`. -/
theorem c1_unary_render_has_stray_quote :
    tolowerOp "a" = "tolower(a')" ∧
    toupperOp "a" = "toupper(a')" ∧
    trimOp "a" = "trim(a')" ∧
    tolowerOp "a" ≠ unarySpecRender "tolower" "a" ∧
    toupperOp "a" ≠ unarySpecRender "toupper" "a" ∧
    trimOp "a" ≠ unarySpecRender "trim" "a" := by
  refine ⟨rfl, rfl, rfl, ?_, ?_, ?_⟩ <;> decide

/-- Claim C2 (code bug): the one-argument substring renders
`substring(a,'i')` as claimed, but the two-argument overload streams `",'"`
between the two integers, producing `substring(a,'1,'2')` — the first
integer argument is not closed by a quote, so the integers are not each
individually enclosed in single quotes as the specification claims. -/
theorem c2_substring_two_arg_misquoted :
    substringOp1 "a" 1 = "substring(a,'1')" ∧
    substringOp2 "a" 1 2 = "substring(a,'1,'2')" ∧
    substringOp2 "a" 1 2 ≠ substring2SpecRender "a" 1 2 := by
  refine ⟨rfl, rfl, ?_⟩
  decide

/-! ## Mutation model of the `atrribute` combinators (claim C10)

Each `atrribute` object owns one buffer `_exp`.  A heap of live `atrribute`
objects is modelled as a list of buffers indexed by position; every
combinator writes `_exp = ostr.str()` into the receiver's slot (`List.set`)
after reading the receiver's buffer and, for `&&`, `||` and `|`, the right
operand's buffer via `evaluate()` (which is `const` and only reads).  The
returned component models `return *this`: the receiver's index. -/

/-- Store effect of `atrribute::operator&&` with receiver `i` and right
operand `j`. -/
def storeAnd (st : List String) (i j : Nat) : List String × Nat :=
  (st.set i (andOp (st.getD i "") (st.getD j "")), i)

/-- Store effect of `atrribute::operator||`. -/
def storeOr (st : List String) (i j : Nat) : List String × Nat :=
  (st.set i (orOp (st.getD i "") (st.getD j "")), i)

/-- Store effect of `atrribute::operator|` (the list join). -/
def storeJoin (st : List String) (i j : Nat) : List String × Nat :=
  (st.set i (joinOp (st.getD i "") (st.getD j "")), i)

/-- Store effect of `atrribute::operator==` on a rendered operand `v` (the
operand is taken by `const` reference and only streamed, never written). -/
def storeEq (st : List String) (i : Nat) (v : String) : List String × Nat :=
  (st.set i (eqOp (st.getD i "") v), i)

/-- Store effect of `atrribute::operator!=`. -/
def storeNe (st : List String) (i : Nat) (v : String) : List String × Nat :=
  (st.set i (neOp (st.getD i "") v), i)

/-- Store effect of `atrribute::operator>=`. -/
def storeGe (st : List String) (i : Nat) (v : String) : List String × Nat :=
  (st.set i (geOp (st.getD i "") v), i)

/-- Store effect of `atrribute::operator>`. -/
def storeGt (st : List String) (i : Nat) (v : String) : List String × Nat :=
  (st.set i (gtOp (st.getD i "") v), i)

/-- Store effect of `atrribute::operator<=`. -/
def storeLe (st : List String) (i : Nat) (v : String) : List String × Nat :=
  (st.set i (leOp (st.getD i "") v), i)

/-- Store effect of `atrribute::operator<`. -/
def storeLt (st : List String) (i : Nat) (v : String) : List String × Nat :=
  (st.set i (ltOp (st.getD i "") v), i)

/-- Store effect of `atrribute::contains`. -/
def storeContains (st : List String) (i : Nat) (v : String) : List String × Nat :=
  (st.set i (containsOp (st.getD i "") v), i)

/-- Store effect of `atrribute::concat`. -/
def storeConcat (st : List String) (i : Nat) (v : String) : List String × Nat :=
  (st.set i (concatOp (st.getD i "") v), i)

/-- Store effect of `atrribute::startswith`. -/
def storeStartswith (st : List String) (i : Nat) (v : String) : List String × Nat :=
  (st.set i (startswithOp (st.getD i "") v), i)

/-- Store effect of `atrribute::endswith`. -/
def storeEndswith (st : List String) (i : Nat) (v : String) : List String × Nat :=
  (st.set i (endswithOp (st.getD i "") v), i)

/-- Writing one slot leaves every other slot of the store unchanged. -/
theorem set_getD_frame (st : List String) (i k : Nat) (x : String)
    (hk : k ≠ i) : (st.set i x).getD k "" = st.getD k "" := by
  simp [List.getD_eq_getElem?_getD, List.getElem?_set_ne (Ne.symm hk)]

/-- Claim C10 (confirmed): every binary combinator of the filter expression
builder mutates only the receiver's buffer — any other attribute's buffer,
in particular the right-hand operand's, reads the same before and after —
and returns the receiver object itself (the receiver's index). -/
theorem c10_combinators_mutate_only_receiver (st : List String)
    (i j k : Nat) (v : String) (hk : k ≠ i) :
    ((storeAnd st i j).1.getD k "" = st.getD k "" ∧ (storeAnd st i j).2 = i) ∧
    ((storeOr st i j).1.getD k "" = st.getD k "" ∧ (storeOr st i j).2 = i) ∧
    ((storeJoin st i j).1.getD k "" = st.getD k "" ∧ (storeJoin st i j).2 = i) ∧
    ((storeEq st i v).1.getD k "" = st.getD k "" ∧ (storeEq st i v).2 = i) ∧
    ((storeNe st i v).1.getD k "" = st.getD k "" ∧ (storeNe st i v).2 = i) ∧
    ((storeGe st i v).1.getD k "" = st.getD k "" ∧ (storeGe st i v).2 = i) ∧
    ((storeGt st i v).1.getD k "" = st.getD k "" ∧ (storeGt st i v).2 = i) ∧
    ((storeLe st i v).1.getD k "" = st.getD k "" ∧ (storeLe st i v).2 = i) ∧
    ((storeLt st i v).1.getD k "" = st.getD k "" ∧ (storeLt st i v).2 = i) ∧
    ((storeContains st i v).1.getD k "" = st.getD k "" ∧
      (storeContains st i v).2 = i) ∧
    ((storeConcat st i v).1.getD k "" = st.getD k "" ∧
      (storeConcat st i v).2 = i) ∧
    ((storeStartswith st i v).1.getD k "" = st.getD k "" ∧
      (storeStartswith st i v).2 = i) ∧
    ((storeEndswith st i v).1.getD k "" = st.getD k "" ∧
      (storeEndswith st i v).2 = i) := by
  refine ⟨⟨?_, rfl⟩, ⟨?_, rfl⟩, ⟨?_, rfl⟩, ⟨?_, rfl⟩, ⟨?_, rfl⟩, ⟨?_, rfl⟩,
    ⟨?_, rfl⟩, ⟨?_, rfl⟩, ⟨?_, rfl⟩, ⟨?_, rfl⟩, ⟨?_, rfl⟩, ⟨?_, rfl⟩,
    ⟨?_, rfl⟩⟩ <;>
  exact set_getD_frame st i k _ hk

/-- Witness for claim C10: after `a && b` on the two-attribute store
`["a", "b"]` with receiver `0` and operand `1`, slot `1` still holds `"b"`
and the receiver index `0` is returned. -/
theorem c10_combinators_mutate_only_receiver_witness :
    (1 : Nat) ≠ 0 ∧
    ((storeAnd ["a", "b"] 0 1).1.getD 1 "" = "b" ∧
      (storeAnd ["a", "b"] 0 1).2 = 0) :=
  ⟨by decide, (c10_combinators_mutate_only_receiver ["a", "b"] 0 1 1 "v"
    (by decide)).1⟩

/-- Claim C3 (confirmed): starting from attribute texts `"a"` and `"b"`, the
chain `a.eq(5).and(b.startswith("x"))` — i.e. `(a == 5) && b.startswith(x)`
in the source's operator spelling — renders exactly
`"a eq 5 and startswith(b,'x')"`: `eq` and `and` separated by single spaces
and the startswith argument single-quoted. -/
theorem c3_filter_chain_renders_exactly :
    andOp (eqOp "a" (toString (5 : Int))) (startswithOp "b" "x") =
      "a eq 5 and startswith(b,'x')" := rfl

/-! ## Query execution coordinator (`odata_service_query.h`)

The class `odata_service_query<Executor, Builder>` holds `shared_ptr`s to an
executor and a builder; each `execute*` method checks
`if (m_query_executor && m_query_builder)` and otherwise returns
`pplx::task_from_result(typename Executor::return_type())`, an immediately
resolved task carrying a default-constructed result.  An eventual result is
modelled by `Outcome`; a null `shared_ptr` by `none`. -/

/-- Eventual result of one asynchronous execution: a resolved value or a
surfaced failure. -/
inductive Outcome (α : Type) where
  | success (a : α)
  | failure (msg : String)
deriving DecidableEq, Repr

/-- The executor collaborator: the three operations
`odata_service_query` forwards to, each returning an eventual result. -/
structure QueryExecutor (α : Type) where
  execute_query : String → Outcome α
  execute_paged_query : String → Outcome α
  execute_operation_query : String → List String → Bool → Outcome α

/-- The builder collaborator: only its `get_query_expression()` is consumed
by the coordinator. -/
structure QueryBuilder where
  query_expression : String

/-- State of one `odata_service_query`: possibly-null executor and builder. -/
structure odata_service_query (α : Type) where
  m_query_executor : Option (QueryExecutor α)
  m_query_builder : Option QueryBuilder

/-- Embedding of `odata_service_query::execute_query`. -/
def odata_service_query.execute_query {α : Type} [Inhabited α]
    (q : odata_service_query α) : Outcome α :=
  match q.m_query_executor, q.m_query_builder with
  | some e, some b => e.execute_query b.query_expression
  | _, _ => Outcome.success default

/-- Embedding of `odata_service_query::execute_paged_query` (the null check
still requires both collaborators even though the builder is bypassed). -/
def odata_service_query.execute_paged_query {α : Type} [Inhabited α]
    (q : odata_service_query α) (next_link_url : String) : Outcome α :=
  match q.m_query_executor, q.m_query_builder with
  | some e, some _ => e.execute_paged_query next_link_url
  | _, _ => Outcome.success default

/-- Embedding of `odata_service_query::execute_operation_query`. -/
def odata_service_query.execute_operation_query {α : Type} [Inhabited α]
    (q : odata_service_query α) (parameters : List String)
    (is_function : Bool) : Outcome α :=
  match q.m_query_executor, q.m_query_builder with
  | some e, some b =>
      e.execute_operation_query b.query_expression parameters is_function
  | _, _ => Outcome.success default

/-- Claim C4 (confirmed): whenever the executor or the builder is absent,
each of `execute_query`, `execute_paged_query` and
`execute_operation_query` resolves immediately with a default-constructed
result and never surfaces a failure. -/
theorem c4_missing_collaborator_resolves_default {α : Type} [Inhabited α]
    (q : odata_service_query α) (next_link_url : String)
    (parameters : List String) (is_function : Bool)
    (h : q.m_query_executor = none ∨ q.m_query_builder = none) :
    q.execute_query = Outcome.success default ∧
    q.execute_paged_query next_link_url = Outcome.success default ∧
    q.execute_operation_query parameters is_function =
      Outcome.success default ∧
    (∀ msg, q.execute_query ≠ Outcome.failure msg) ∧
    (∀ msg, q.execute_paged_query next_link_url ≠ Outcome.failure msg) ∧
    (∀ msg, q.execute_operation_query parameters is_function ≠
      Outcome.failure msg) := by
  obtain ⟨e, b⟩ := q
  have hd : (∀ x : QueryExecutor α, e ≠ some x) ∨
      (∀ y : QueryBuilder, b ≠ some y) := by
    rcases h with h | h
    · exact Or.inl (by intro x hx; simp [hx] at h)
    · exact Or.inr (by intro y hy; simp [hy] at h)
  cases e <;> cases b <;>
    simp [odata_service_query.execute_query,
      odata_service_query.execute_paged_query,
      odata_service_query.execute_operation_query] <;>
  rcases hd with hd | hd <;> simp at hd

/-- Witness for claim C4: the coordinator with no executor and no builder
resolves all three operations with the default result. -/
theorem c4_missing_collaborator_resolves_default_witness :
    (⟨none, none⟩ : odata_service_query Nat).execute_query =
      Outcome.success default ∧
    (⟨none, none⟩ : odata_service_query Nat).execute_paged_query "next" =
      Outcome.success default ∧
    (⟨none, none⟩ : odata_service_query Nat).execute_operation_query [] true =
      Outcome.success default :=
  have h := c4_missing_collaborator_resolves_default
    (⟨none, none⟩ : odata_service_query Nat) "next" [] true (Or.inl rfl)
  ⟨h.1, h.2.1, h.2.2.1⟩

/-! ## Metadata model (`edm_model.cpp`, `edm_model.h`)

A `Model` owns an ordered list of schemas (`m_schemata`, a `std::vector`
filled by `add_schema`) and a version string.  Each schema owns four
name-to-descriptor tables and a collection of entity containers;
descriptors are opaque here and represented by numeric identities, the
tables by association lists in registration order.

`edm_schema::find_container` is given in `edm_model.cpp` and is embedded
from that source.  The four type lookups `edm_schema::find_entity_type`,
`find_complex_type`, `find_enum_type` and `find_operation_type` are only
declared in headers outside the sources; they are modelled from the
specification (see `findDescriptor`). -/

/-- An entity container: only its name and default flag matter to the
lookups verified here. -/
structure edm_entity_container where
  name : String
  is_default : Bool
deriving DecidableEq

/-- A schema: name, alias, four descriptor tables and its containers. -/
structure edm_schema where
  m_name : String
  m_alias : String
  m_entity_types : List (String × Nat)
  m_complex_types : List (String × Nat)
  m_enum_types : List (String × Nat)
  m_operation_types : List (String × Nat)
  m_entity_containers : List edm_entity_container
deriving DecidableEq

/-- Embedding of `edm_schema::find_container` from `edm_model.cpp`: an empty
name selects the first container flagged default; a non-empty name selects
the first container whose plain name equals `name`. -/
def edm_schema.find_container (s : edm_schema) (name : String) :
    Option edm_entity_container :=
  if name = "" then
    s.m_entity_containers.find? (fun c => c.is_default)
  else
    s.m_entity_containers.find? (fun c => c.name == name)

/-- Test for the namespace separator used in qualified lookup names. -/
def hasSeparator (name : String) : Bool :=
  name.data.contains '.'

/-- Modelled from the spec: the body shared by the four schema-level type
lookups `edm_schema::find_entity_type` / `find_complex_type` /
`find_enum_type` / `find_operation_type`, which are declared in
`edm_schema.h` (not among the sources).  Per specification section 4.3 the
lookup first attempts an exact match of `name` against
`schema_name.local_name` and against `alias.local_name`; if that fails and
`name` contains no namespace separator it scans the local-name table and
returns the first match. -/
def findDescriptor (s : edm_schema) (tbl : List (String × Nat))
    (name : String) : Option Nat :=
  match tbl.find? (fun p =>
      name == s.m_name ++ "." ++ p.1 || name == s.m_alias ++ "." ++ p.1) with
  | some p => some p.2
  | none =>
      if hasSeparator name then none
      else (tbl.find? (fun p => p.1 == name)).map (fun p => p.2)

/-- Schema-level entity type lookup (modelled from the spec via
`findDescriptor`). -/
def edm_schema.find_entity_type (s : edm_schema) (name : String) :
    Option Nat :=
  findDescriptor s s.m_entity_types name

/-- Schema-level complex type lookup (modelled from the spec). -/
def edm_schema.find_complex_type (s : edm_schema) (name : String) :
    Option Nat :=
  findDescriptor s s.m_complex_types name

/-- Schema-level enum type lookup (modelled from the spec). -/
def edm_schema.find_enum_type (s : edm_schema) (name : String) :
    Option Nat :=
  findDescriptor s s.m_enum_types name

/-- Schema-level operation type lookup (modelled from the spec). -/
def edm_schema.find_operation_type (s : edm_schema) (name : String) :
    Option Nat :=
  findDescriptor s s.m_operation_types name

/-- A model: ordered schemas and the protocol version string. -/
structure edm_model where
  m_schemata : List edm_schema
  m_version : String
deriving DecidableEq

/-- Embedding of `edm_model::find_entity_type` from `edm_model.cpp`: loop
over the schemas in order and return the first non-null schema-level
result. -/
def edm_model.find_entity_type (md : edm_model) (name : String) :
    Option Nat :=
  md.m_schemata.findSome? (fun sc => sc.find_entity_type name)

/-- Embedding of `edm_model::find_complex_type` from `edm_model.cpp`. -/
def edm_model.find_complex_type (md : edm_model) (name : String) :
    Option Nat :=
  md.m_schemata.findSome? (fun sc => sc.find_complex_type name)

/-- Embedding of `edm_model::find_enum_type` from `edm_model.cpp`. -/
def edm_model.find_enum_type (md : edm_model) (name : String) :
    Option Nat :=
  md.m_schemata.findSome? (fun sc => sc.find_enum_type name)

/-- Embedding of `edm_model::find_operation_type` from `edm_model.cpp`. -/
def edm_model.find_operation_type (md : edm_model) (name : String) :
    Option Nat :=
  md.m_schemata.findSome? (fun sc => sc.find_operation_type name)

/-- Embedding of `edm_model::find_container` from `edm_model.cpp`. -/
def edm_model.find_container (md : edm_model) (name : String) :
    Option edm_entity_container :=
  md.m_schemata.findSome? (fun sc => sc.find_container name)

/-- All containers of a model, in schema-registration order. -/
def allContainers (md : edm_model) : List edm_entity_container :=
  (md.m_schemata.map (fun sc => sc.m_entity_containers)).flatten

/-- Phase 1 of the lookup policy as the specification words it: an exact
match of `name` against `schema_name.local_name` or `alias.local_name`
within one schema's table. -/
def qualifiedFind (s : edm_schema) (tbl : List (String × Nat))
    (name : String) : Option Nat :=
  (tbl.find? (fun p =>
      name == s.m_name ++ "." ++ p.1 || name == s.m_alias ++ "." ++ p.1)).map
    (fun p => p.2)

/-- Phase 2 of the lookup policy as the specification words it: the first
local-name match within one schema's table. -/
def unqualifiedFind (tbl : List (String × Nat)) (name : String) :
    Option Nat :=
  (tbl.find? (fun p => p.1 == name)).map (fun p => p.2)

/-- The two-phase model-wide lookup exactly as the specification words it:
first the qualified match across all schemas, and only if that fails and
the name contains no namespace separator, the unqualified scan across all
schemas in registration order. -/
def specTwoPhaseFind (md : edm_model)
    (proj : edm_schema → List (String × Nat)) (name : String) : Option Nat :=
  match md.m_schemata.findSome? (fun sc => qualifiedFind sc (proj sc) name) with
  | some v => some v
  | none =>
      if hasSeparator name then none
      else md.m_schemata.findSome? (fun sc => unqualifiedFind (proj sc) name)

/-- The two-phase container lookup the specification claims for non-empty
names (qualified match against `schema_name.container_name` or
`alias.container_name` first, then the unqualified scan). -/
def specTwoPhaseContainerFind (md : edm_model) (name : String) :
    Option edm_entity_container :=
  match md.m_schemata.findSome? (fun sc =>
      sc.m_entity_containers.find? (fun c =>
        name == sc.m_name ++ "." ++ c.name ||
        name == sc.m_alias ++ "." ++ c.name)) with
  | some c => some c
  | none =>
      if hasSeparator name then none
      else md.m_schemata.findSome? (fun sc =>
        sc.m_entity_containers.find? (fun c => c.name == name))

/-- Data of the one-character separator string. -/
theorem dot_data : ("." : String).data = ['.'] := rfl

/-- A name of the qualified form `a ++ "." ++ b` always contains the
namespace separator. -/
theorem hasSeparator_append_dot (a b : String) :
    hasSeparator (a ++ "." ++ b) = true := by
  simp [hasSeparator, String.data_append, dot_data, List.contains,
    List.elem_iff]

/-- A name without the separator never matches qualified form, so the
qualified scan of any table comes up empty. -/
theorem qualified_scan_eq_none_of_no_sep (s : edm_schema)
    (tbl : List (String × Nat)) (name : String)
    (h : hasSeparator name = false) :
    tbl.find? (fun p =>
      name == s.m_name ++ "." ++ p.1 ||
      name == s.m_alias ++ "." ++ p.1) = none := by
  rw [List.find?_eq_none]
  intro p _
  simp only [Bool.or_eq_true, beq_iff_eq, not_or]
  constructor
  · intro hname
    rw [hname, hasSeparator_append_dot] at h
    exact absurd h (by simp)
  · intro hname
    rw [hname, hasSeparator_append_dot] at h
    exact absurd h (by simp)

/-- On a separator-carrying name the schema-level lookup is exactly its
qualified phase. -/
theorem findDescriptor_eq_of_sep (s : edm_schema)
    (tbl : List (String × Nat)) (name : String)
    (h : hasSeparator name = true) :
    findDescriptor s tbl name = qualifiedFind s tbl name := by
  unfold findDescriptor qualifiedFind
  cases hf : tbl.find? (fun p =>
      name == s.m_name ++ "." ++ p.1 || name == s.m_alias ++ "." ++ p.1) <;>
    simp [hf, h]

/-- On a separator-free name the schema-level lookup is exactly its
unqualified phase. -/
theorem findDescriptor_eq_of_no_sep (s : edm_schema)
    (tbl : List (String × Nat)) (name : String)
    (h : hasSeparator name = false) :
    findDescriptor s tbl name = unqualifiedFind tbl name := by
  unfold findDescriptor unqualifiedFind
  rw [qualified_scan_eq_none_of_no_sep s tbl name h]
  simp [h]

/-- Pointwise equal lookup functions give equal first-hit scans. -/
theorem findSome?_congr_fun {α β : Type} (l : List α) (f g : α → Option β)
    (h : ∀ x ∈ l, f x = g x) : l.findSome? f = l.findSome? g := by
  induction l with
  | nil => rfl
  | cons x xs ih =>
      rw [List.findSome?_cons, List.findSome?_cons, h x (List.mem_cons_self x xs)]
      cases g x with
      | none => exact ih (fun y hy => h y (List.mem_cons_of_mem x hy))
      | some v => rfl

/-- The schema-by-schema loop of `edm_model.cpp` computes exactly the
specification's two-phase policy: the two strategies match disjoint sets of
names (qualified matches force a separator), so looping per schema and
phasing across schemas coincide. -/
theorem model_loop_eq_twoPhase (md : edm_model)
    (proj : edm_schema → List (String × Nat)) (name : String) :
    md.m_schemata.findSome? (fun sc => findDescriptor sc (proj sc) name) =
      specTwoPhaseFind md proj name := by
  unfold specTwoPhaseFind
  cases hsep : hasSeparator name
  · have h1 : md.m_schemata.findSome?
        (fun sc => qualifiedFind sc (proj sc) name) = none := by
      rw [List.findSome?_eq_none_iff]
      intro sc _
      unfold qualifiedFind
      rw [qualified_scan_eq_none_of_no_sep sc (proj sc) name hsep]
      rfl
    rw [h1]
    simp only [hsep, Bool.false_eq_true, if_false]
    exact findSome?_congr_fun _ _ _
      (fun sc _ => findDescriptor_eq_of_no_sep sc (proj sc) name hsep)
  · rw [findSome?_congr_fun _ _ _
      (fun sc _ => findDescriptor_eq_of_sep sc (proj sc) name hsep)]
    cases hq : md.m_schemata.findSome?
        (fun sc => qualifiedFind sc (proj sc) name)
    · simp [hsep]
    · rfl

/-- Claim C6 (amended): for the four type lookups, the per-schema loop of
`edm_model.cpp` renders exactly the specification's two-phase policy —
qualified match across all schemas first, then (for separator-free names)
the unqualified scan in schema-registration order; the two phases can never
both match one name, since a qualified match forces a separator.  The
container lookup, however, matches a non-empty name only against each
container's plain name, schema by schema — it performs no qualified
resolution. -/
theorem c6_two_phase_lookup_amended (md : edm_model) (name : String)
    (hname : name ≠ "") :
    md.find_entity_type name =
      specTwoPhaseFind md (fun s => s.m_entity_types) name ∧
    md.find_complex_type name =
      specTwoPhaseFind md (fun s => s.m_complex_types) name ∧
    md.find_enum_type name =
      specTwoPhaseFind md (fun s => s.m_enum_types) name ∧
    md.find_operation_type name =
      specTwoPhaseFind md (fun s => s.m_operation_types) name ∧
    md.find_container name =
      (allContainers md).find? (fun c => c.name == name) := by
  refine ⟨model_loop_eq_twoPhase md _ name, model_loop_eq_twoPhase md _ name,
    model_loop_eq_twoPhase md _ name, model_loop_eq_twoPhase md _ name, ?_⟩
  unfold edm_model.find_container allContainers
  rw [List.find?_flatten, List.findSome?_map]
  exact findSome?_congr_fun _ _ _
    (fun sc _ => by simp [edm_schema.find_container, hname, Function.comp])

/-- A model with one schema named `NS` owning a container named `C`; used
to exhibit the container-lookup counterexample for claim C6. -/
def mdC6 : edm_model :=
  ⟨[⟨"NS", "", [], [], [], [], [⟨"C", false⟩]⟩], "4.0"⟩

/-- Counterexample to claim C6 as stated: the specification's two-phase
policy resolves the qualified container name `NS.C`, but the code's
`find_container` matches only plain container names and misses it. -/
theorem c6_counterexample_container_not_two_phase :
    specTwoPhaseContainerFind mdC6 "NS.C" = some ⟨"C", false⟩ ∧
    mdC6.find_container "NS.C" = none := by
  constructor <;> decide

/-- Witness for claim C6: the amended statement evaluated on `mdC6` at the
qualified name `NS.C`. -/
theorem c6_two_phase_lookup_amended_witness :
    mdC6.find_entity_type "NS.C" =
      specTwoPhaseFind mdC6 (fun s => s.m_entity_types) "NS.C" ∧
    mdC6.find_complex_type "NS.C" =
      specTwoPhaseFind mdC6 (fun s => s.m_complex_types) "NS.C" ∧
    mdC6.find_enum_type "NS.C" =
      specTwoPhaseFind mdC6 (fun s => s.m_enum_types) "NS.C" ∧
    mdC6.find_operation_type "NS.C" =
      specTwoPhaseFind mdC6 (fun s => s.m_operation_types) "NS.C" ∧
    mdC6.find_container "NS.C" =
      (allContainers mdC6).find? (fun c => c.name == "NS.C") :=
  c6_two_phase_lookup_amended mdC6 "NS.C" (by decide)

/-- Containers of a member schema are containers of the model. -/
theorem mem_allContainers (md : edm_model) (sc : edm_schema)
    (x : edm_entity_container) (hsc : sc ∈ md.m_schemata)
    (hx : x ∈ sc.m_entity_containers) : x ∈ allContainers md := by
  unfold allContainers
  rw [List.mem_flatten]
  exact ⟨sc.m_entity_containers, List.mem_map_of_mem _ hsc, hx⟩

/-- Loop invariant of the default-container search: if `c` is a default
container of some schema and every default container of the model equals
`c`, the schema loop returns exactly `c`. -/
theorem find_default_loop (scs : List edm_schema) (c : edm_entity_container)
    (hmem : c ∈ (scs.map (fun sc => sc.m_entity_containers)).flatten)
    (hdef : c.is_default = true)
    (huniq : ∀ c1 ∈ (scs.map (fun sc => sc.m_entity_containers)).flatten,
      c1.is_default = true → c1 = c) :
    scs.findSome? (fun sc => sc.find_container "") = some c := by
  induction scs with
  | nil => simp at hmem
  | cons sc rest ih =>
      rw [List.findSome?_cons]
      cases hf : sc.find_container "" with
      | some c1 =>
          have hf' : sc.m_entity_containers.find?
              (fun x => x.is_default) = some c1 := by
            simpa [edm_schema.find_container] using hf
          have hd1 : c1.is_default = true := List.find?_some hf'
          have hm1 : c1 ∈ sc.m_entity_containers :=
            List.mem_of_find?_eq_some hf'
          have : c1 = c := huniq c1
            (by rw [List.map_cons, List.flatten_cons, List.mem_append]
                exact Or.inl hm1) hd1
          rw [this]
      | none =>
          have hf' : ∀ x ∈ sc.m_entity_containers, ¬ x.is_default = true :=
            List.find?_eq_none.mp
              (by simpa [edm_schema.find_container] using hf)
          have hmem' : c ∈ (rest.map
              (fun sc => sc.m_entity_containers)).flatten := by
            rw [List.map_cons, List.flatten_cons, List.mem_append] at hmem
            rcases hmem with h | h
            · exact absurd hdef (hf' c h)
            · exact h
          exact ih hmem' (fun c1 h1 hd1 => huniq c1
            (by rw [List.map_cons, List.flatten_cons, List.mem_append]
                exact Or.inr h1) hd1)

/-- Claim C5 (confirmed): in a model whose containers carry at most one
default flag, `find_container("")` returns the default-flagged container
when one exists and absence otherwise, and anything it returns carries the
default flag. -/
theorem c5_default_container_lookup (md : edm_model)
    (huniq : ∀ c1 ∈ allContainers md, ∀ c2 ∈ allContainers md,
      c1.is_default = true → c2.is_default = true → c1 = c2) :
    (∀ c, md.find_container "" = some c → c.is_default = true) ∧
    (∀ c ∈ allContainers md, c.is_default = true →
      md.find_container "" = some c) ∧
    ((∀ c ∈ allContainers md, c.is_default = false) →
      md.find_container "" = none) := by
  refine ⟨?_, ?_, ?_⟩
  · intro c hc
    obtain ⟨sc, _, hfc⟩ := List.exists_of_findSome?_eq_some hc
    exact List.find?_some
      (show sc.m_entity_containers.find? (fun x => x.is_default) = some c by
        simpa [edm_schema.find_container] using hfc)
  · intro c hmem hdef
    exact find_default_loop md.m_schemata c hmem hdef
      (fun c1 h1 hd1 => huniq c1 h1 c hmem hd1 hdef)
  · intro hnone
    unfold edm_model.find_container
    rw [List.findSome?_eq_none_iff]
    intro sc hsc
    have hx : ∀ x ∈ sc.m_entity_containers, ¬ x.is_default = true := by
      intro x hx
      simp [hnone x (mem_allContainers md sc x hsc hx)]
    simp only [edm_schema.find_container, List.find?_eq_none, if_pos]
    intro x hmx
    exact Bool.not_eq_true _ ▸ hx x hmx

/-- A model with two schemas and a single default container in the second,
used to evaluate claim C5. -/
def mdC5 : edm_model :=
  ⟨[⟨"A", "", [], [], [], [], [⟨"X", false⟩]⟩,
    ⟨"B", "", [], [], [], [], [⟨"D", true⟩]⟩], "4.0"⟩

/-- Witness for claim C5: on `mdC5` the empty-name lookup returns the one
default-flagged container `D` of the second schema. -/
theorem c5_default_container_lookup_witness :
    (⟨"D", true⟩ : edm_entity_container) ∈ allContainers mdC5 ∧
    mdC5.find_container "" = some ⟨"D", true⟩ :=
  ⟨by decide, (c5_default_container_lookup mdC5 (by decide)).2.1
    ⟨"D", true⟩ (by decide) (by decide)⟩

/-- No descriptor of the table matches `name` under either the qualified or
the unqualified strategy. -/
def noDescriptorMatch (s : edm_schema) (tbl : List (String × Nat))
    (name : String) : Prop :=
  ∀ p ∈ tbl, name ≠ s.m_name ++ "." ++ p.1 ∧
    name ≠ s.m_alias ++ "." ++ p.1 ∧ p.1 ≠ name

/-- Decidability of the no-match predicate, for concrete evaluation. -/
instance (s : edm_schema) (tbl : List (String × Nat)) (name : String) :
    Decidable (noDescriptorMatch s tbl name) := by
  unfold noDescriptorMatch
  infer_instance

/-- A schema-level lookup on a name matching nothing comes up empty. -/
theorem findDescriptor_eq_none_of_noMatch (s : edm_schema)
    (tbl : List (String × Nat)) (name : String)
    (h : noDescriptorMatch s tbl name) :
    findDescriptor s tbl name = none := by
  have hq : tbl.find? (fun p =>
      name == s.m_name ++ "." ++ p.1 ||
      name == s.m_alias ++ "." ++ p.1) = none := by
    rw [List.find?_eq_none]
    intro p hp
    simp only [Bool.or_eq_true, beq_iff_eq, not_or]
    exact ⟨(h p hp).1, (h p hp).2.1⟩
  have hu : tbl.find? (fun p => p.1 == name) = none := by
    rw [List.find?_eq_none]
    intro p hp
    simp only [beq_iff_eq]
    exact (h p hp).2.2
  unfold findDescriptor
  rw [hq, hu]
  simp

/-- Claim C7 (amended): a name that matches nothing resolves to absence in
each of the five model-level lookups; the lookups are total functions of an
unchanged model and signal no fault.  For `find_container` this holds for
non-empty names — the empty name is the default-container query instead. -/
theorem c7_lookup_miss_is_absence (md : edm_model) (name : String)
    (h1 : ∀ sc ∈ md.m_schemata, noDescriptorMatch sc sc.m_entity_types name)
    (h2 : ∀ sc ∈ md.m_schemata, noDescriptorMatch sc sc.m_complex_types name)
    (h3 : ∀ sc ∈ md.m_schemata, noDescriptorMatch sc sc.m_enum_types name)
    (h4 : ∀ sc ∈ md.m_schemata,
      noDescriptorMatch sc sc.m_operation_types name)
    (h5 : ∀ sc ∈ md.m_schemata, ∀ c ∈ sc.m_entity_containers,
      c.name ≠ name)
    (hname : name ≠ "") :
    md.find_entity_type name = none ∧
    md.find_complex_type name = none ∧
    md.find_enum_type name = none ∧
    md.find_operation_type name = none ∧
    md.find_container name = none := by
  refine ⟨?_, ?_, ?_, ?_, ?_⟩
  · rw [edm_model.find_entity_type, List.findSome?_eq_none_iff]
    exact fun sc hsc =>
      findDescriptor_eq_none_of_noMatch sc sc.m_entity_types name (h1 sc hsc)
  · rw [edm_model.find_complex_type, List.findSome?_eq_none_iff]
    exact fun sc hsc =>
      findDescriptor_eq_none_of_noMatch sc sc.m_complex_types name (h2 sc hsc)
  · rw [edm_model.find_enum_type, List.findSome?_eq_none_iff]
    exact fun sc hsc =>
      findDescriptor_eq_none_of_noMatch sc sc.m_enum_types name (h3 sc hsc)
  · rw [edm_model.find_operation_type, List.findSome?_eq_none_iff]
    exact fun sc hsc =>
      findDescriptor_eq_none_of_noMatch sc sc.m_operation_types name
        (h4 sc hsc)
  · rw [edm_model.find_container, List.findSome?_eq_none_iff]
    intro sc hsc
    simp only [edm_schema.find_container, hname, if_false,
      Bool.false_eq_true, List.find?_eq_none, beq_iff_eq]
    exact fun c hcm => h5 sc hsc c hcm

/-- A model with one schema `S` holding one default container `C`; its
empty-name lookup succeeds although the empty name matches nothing. -/
def mdC7 : edm_model :=
  ⟨[⟨"S", "", [], [], [], [], [⟨"C", true⟩]⟩], "4.0"⟩

/-- Counterexample to claim C7 as stated: the empty lookup name matches no
container of `mdC7` under either strategy, yet `find_container("")` does
not return absence — it returns the default container. -/
theorem c7_counterexample_empty_name_returns_default :
    (∀ sc ∈ mdC7.m_schemata, ∀ c ∈ sc.m_entity_containers,
      c.name ≠ "" ∧ "" ≠ sc.m_name ++ "." ++ c.name ∧
      "" ≠ sc.m_alias ++ "." ++ c.name) ∧
    mdC7.find_container "" = some ⟨"C", true⟩ := by
  constructor <;> decide

/-- Witness for claim C7: on `mdC5` the unmatched name `Nope` resolves to
absence in all five lookups. -/
theorem c7_lookup_miss_is_absence_witness :
    mdC5.find_entity_type "Nope" = none ∧
    mdC5.find_complex_type "Nope" = none ∧
    mdC5.find_enum_type "Nope" = none ∧
    mdC5.find_operation_type "Nope" = none ∧
    mdC5.find_container "Nope" = none :=
  c7_lookup_miss_is_absence mdC5 "Nope" (by decide) (by decide) (by decide)
    (by decide) (by decide) (by decide)

/-! ## String splitting (`split_string`)

The implementation of `odata::utility::split_string` lives in a common
utility translation unit that is not among the sources; only its test
fixtures (`common_utility_test.cpp`) are.  It is modelled from the
specification: scan for the first occurrence of the delimiter, emit the
segment before it, advance past the delimiter by its full length (never
re-scanning inside a consumed match), and emit the remainder when no
occurrence is left; an empty delimiter, an empty source, a missing or
too-long delimiter all yield the single-element result.  The recursion is
bounded by a character budget; every consumed occurrence eats at least one
character, so a budget of the source length is never exhausted (budget
exhaustion and a missing delimiter return the same value, so the bound is
inessential). -/

/-- Index of the first occurrence of `d` in `s`, scanning left to right. -/
def findDelim (d : List Char) : List Char → Option Nat
  | [] => if d.isPrefixOf ([] : List Char) then some 0 else none
  | c :: cs =>
      if d.isPrefixOf (c :: cs) then some 0
      else (findDelim d cs).map (fun i => i + 1)

/-- Fuelled splitting loop: take the segment before each occurrence and
continue past it. -/
def splitFuel (d : List Char) : Nat → List Char → List (List Char)
  | 0, s => [s]
  | fuel + 1, s =>
      match findDelim d s with
      | none => [s]
      | some i => s.take i :: splitFuel d fuel (s.drop (i + d.length))

/-- Modelled from the spec: the character-level behaviour of
`odata::utility::split_string` (implementation not among the sources),
splitting on every non-overlapping occurrence and advancing by the
delimiter's full length per match. -/
def splitChars (s d : List Char) : List (List Char) :=
  if d.isEmpty then [s] else splitFuel d s.length s

/-- Modelled from the spec: `split_string(src, delim, list)` — the list the
call fills, as a value. -/
def split_string (s delimiter : String) : List String :=
  (splitChars s.data delimiter.data).map (fun l => String.mk l)

/-- A search for a delimiter that matches at no offset reports no
occurrence. -/
theorem findDelim_eq_none (d s : List Char)
    (h : ∀ i, d.isPrefixOf (s.drop i) = false) : findDelim d s = none := by
  induction s with
  | nil =>
      have h0 := h 0
      simp only [List.drop_nil] at h0
      simp [findDelim, h0]
  | cons c cs ih =>
      have h0 := h 0
      simp only [List.drop_zero] at h0
      simp only [findDelim, h0, Bool.false_eq_true, if_false]
      rw [ih (fun i => h (i + 1))]
      rfl

/-- Splitting at any fuel returns the whole source when the delimiter
occurs nowhere. -/
theorem splitFuel_of_no_occurrence (d s : List Char) (fuel : Nat)
    (h : ∀ i, d.isPrefixOf (s.drop i) = false) : splitFuel d fuel s = [s] := by
  cases fuel with
  | zero => rfl
  | succ n => simp [splitFuel, findDelim_eq_none d s h]

/-- Rebuilding a string from its characters is the identity. -/
theorem mk_data_eq (s : String) : String.mk s.data = s := rfl

/-- When the delimiter matches at no offset of the source (checked up to
the source's length), the split is the one-element list holding the
source.  The bounded hypothesis suffices: beyond the length the dropped
suffix is empty, and the delimiter must be non-empty because an empty
delimiter matches at offset zero. -/
theorem split_string_of_no_occurrence (s d : String)
    (h : ∀ i ≤ s.data.length, d.data.isPrefixOf (s.data.drop i) = false) :
    split_string s d = [s] := by
  have hne : d.data.isEmpty = false := by
    cases hd : d.data with
    | nil =>
        have h0 := h 0 (Nat.zero_le _)
        rw [hd] at h0
        simp [List.isPrefixOf] at h0
    | cons c cs => rfl
  have hall : ∀ i, d.data.isPrefixOf (s.data.drop i) = false := by
    intro i
    by_cases hi : i ≤ s.data.length
    · exact h i hi
    · have hnil : s.data.drop i = [] :=
        List.drop_eq_nil_of_le (Nat.le_of_lt (Nat.lt_of_not_le hi))
      rw [hnil]
      cases hd : d.data with
      | nil =>
          rw [hd] at hne
          simp [List.isEmpty] at hne
      | cons c cs => rfl
  unfold split_string splitChars
  rw [hne, if_neg (by simp),
    splitFuel_of_no_occurrence d.data s.data _ hall]
  simp [mk_data_eq]

/-- Claim C9 (confirmed): `split_string` splits on every non-overlapping
occurrence advancing by the delimiter's full length per match (the two
overlapping-dot fixtures produce 7 and 6 elements), preserves empty
segments at the ends, and returns the single-element sequence containing
the source unchanged when the delimiter is empty, the source is empty, the
delimiter occurs nowhere, or the delimiter is longer than the source. -/
theorem c9_split_string_behaviour :
    split_string "...adf..ad....fa..dfdas..." ".." =
      ["", ".adf", "ad", "", "fa", "dfdas", "."] ∧
    (split_string "...adf..ad....fa..dfdas..." "..").length = 7 ∧
    split_string "..adf..ad..fa..dfdas.." ".." =
      ["", "adf", "ad", "fa", "dfdas", ""] ∧
    (split_string "..adf..ad..fa..dfdas.." "..").length = 6 ∧
    split_string "23123.23232.32323" "." = ["23123", "23232", "32323"] ∧
    split_string "x" "" = ["x"] ∧
    split_string "" ".." = [""] ∧
    (∀ s : String, split_string s "" = [s]) ∧
    (∀ d : String, split_string "" d = [""]) ∧
    (∀ s d : String,
      (∀ i ≤ s.data.length, d.data.isPrefixOf (s.data.drop i) = false) →
      split_string s d = [s]) ∧
    (∀ s d : String, s.data.length < d.data.length →
      split_string s d = [s]) := by
  refine ⟨by decide, by decide, by decide, by decide, by decide, by decide,
    by decide, fun s => rfl, ?_, split_string_of_no_occurrence, ?_⟩
  · intro d
    unfold split_string splitChars
    cases h : d.data.isEmpty <;> simp [h, splitFuel]
  · intro s d hlen
    refine split_string_of_no_occurrence s d ?_
    intro i _
    cases hp : d.data.isPrefixOf (s.data.drop i)
    · rfl
    · have hle : d.data.length ≤ (s.data.drop i).length :=
        (List.isPrefixOf_iff_prefix.mp hp).length_le
      rw [List.length_drop] at hle
      omega

/-- Witness for claim C9: the quantified clauses evaluated on the test
fixtures — the delimiter `..` occurs nowhere in `adfadfadfdas`, and the
over-long delimiter of the exceed-length fixture leaves its source whole. -/
theorem c9_split_string_behaviour_witness :
    split_string "adfadfadfdas" ".." = ["adfadfadfdas"] ∧
    split_string "...adf..ad....fa..dfdas...f"
      "...adf..ad....fa..dfdas...fdfdfdfdf" =
      ["...adf..ad....fa..dfdas...f"] :=
  ⟨(c9_split_string_behaviour).2.2.2.2.2.2.2.2.2.1 "adfadfadfdas" ".."
      (by decide),
    (c9_split_string_behaviour).2.2.2.2.2.2.2.2.2.2
      "...adf..ad....fa..dfdas...f" "...adf..ad....fa..dfdas...fdfdfdfdf"
      (by decide)⟩

/-! ## Decimal rendering of binary64 values (`print_double` / `format_decimal`)

The implementation of `odata::utility::print_double` lives in a common
utility translation unit that is not among the sources; only its test
fixtures are.  It is modelled from the specification: render the exact
decimal value held by the binary64 representation at the requested number
of fractional digits, strip trailing zero fractional digits but keep at
least one, emit no decimal point at precision `0`, preserve the sign of an
exact zero, and default the precision to `1`.  The specification hedges
between truncating and rounding at the requested precision; the repository
test `print_double(-4212.11, 9) == "-4212.11"` decides for rounding to
nearest (the exact expansion is `-4212.10999999999967…`), so the model
rounds to nearest with ties to even, and the truncating variant the claim
asserts is defined alongside for comparison.

A binary64 value is given exactly as a sign flag and a magnitude
`m / 2^k`; the concrete representations below are the exact IEEE-754
values of the C++ literals in the fixtures. -/

/-- Exact value of a binary64 number: sign flag and magnitude `m / 2^k`. -/
structure DoubleRep where
  neg : Bool
  m : Nat
  k : Nat
deriving DecidableEq

/-- Magnitude scaled to `p` fractional digits and rounded to the nearest
integer, ties to even — the integer whose digits `%.pf` prints. -/
def roundScaled (m k p : Nat) : Nat :=
  let den := 2 ^ k
  let n := m * 10 ^ p
  let q := n / den
  let r := n % den
  if den < 2 * r ∨ (2 * r = den ∧ q % 2 = 1) then q + 1 else q

/-- Magnitude scaled to `p` fractional digits and truncated toward zero —
the integer the claim's "truncated to the given precision" denotes. -/
def truncScaled (m k p : Nat) : Nat :=
  m * 10 ^ p / 2 ^ k

/-- Trailing-zero stripping of a digit block. -/
def stripZeros (l : List Char) : List Char :=
  (l.reverse.dropWhile (fun c => c == '0')).reverse

/-- The fractional digit block of the scaled integer `v`: its last `p`
digits, left-padded with zeros to width `p`, trailing zeros stripped. -/
def fracPart (v p : Nat) : List Char :=
  stripZeros (List.replicate (p - (Nat.repr (v % 10 ^ p)).data.length) '0' ++
    (Nat.repr (v % 10 ^ p)).data)

/-- Rendering of a sign and a scaled magnitude at precision `p`: no point
and no fractional digits at precision `0`; otherwise integer part, point,
and the stripped fractional block, kept non-empty. -/
def renderScaled (neg : Bool) (v p : Nat) : String :=
  (if neg then "-" else "") ++
    (if p = 0 then Nat.repr v
     else Nat.repr (v / 10 ^ p) ++ "." ++
       String.mk (if (fracPart v p).isEmpty then ['0'] else fracPart v p))

/-- Modelled from the spec: `format_decimal(value, precision)` with
rounding to nearest at the requested precision, as the repository tests
mandate. -/
def format_decimal (d : DoubleRep) (p : Nat) : String :=
  renderScaled d.neg (roundScaled d.m d.k p) p

/-- The claim's reading of `format_decimal`: exact value truncated to the
requested precision (defined from the claim's words, for comparison). -/
def format_decimal_trunc (d : DoubleRep) (p : Nat) : String :=
  renderScaled d.neg (truncScaled d.m d.k p) p

/-- Modelled from the spec: `print_double(value)` — the default precision
is `1`. -/
def print_double (d : DoubleRep) : String :=
  format_decimal d 1

/-- The exact binary64 value of the C++ literal `-4212.11`:
`-4631263922471567 / 2^40 = -4212.10999999999967…`. -/
def dNeg4212_11 : DoubleRep := ⟨true, 4631263922471567, 40⟩

/-- Counterexample to claim C8 as stated: truncating the exact expansion
of binary64 `-4212.11` at 9 fractional digits yields `-4212.109999999`,
not the `-4212.11` the repository test
`print_double_minux_precision_input` requires — the code rounds to
nearest rather than truncating. -/
theorem c8_counterexample_truncation :
    format_decimal_trunc dNeg4212_11 9 = "-4212.109999999" ∧
    format_decimal_trunc dNeg4212_11 9 ≠ "-4212.11" ∧
    format_decimal dNeg4212_11 9 = "-4212.11" := by
  refine ⟨by decide, by decide, by decide⟩

/-- Decimal digit characters are never the decimal point. -/
theorem digitChar_ne_dot (n : Nat) : Nat.digitChar n ≠ '.' := by
  by_cases h : n < 16
  · interval_cases n <;> decide
  · have hstar : Nat.digitChar n = '*' := by
      unfold Nat.digitChar
      repeat rw [if_neg (by omega)]
    rw [hstar]
    decide

/-- The digit emitter produces no decimal point beyond what the
accumulator already holds. -/
theorem toDigitsCore_ne_dot (fuel : Nat) :
    ∀ (n : Nat) (acc : List Char), (∀ c ∈ acc, c ≠ '.') →
    ∀ c ∈ Nat.toDigitsCore 10 fuel n acc, c ≠ '.' := by
  induction fuel with
  | zero => exact fun n acc hacc c hc => hacc c hc
  | succ f ih =>
      intro n acc hacc c hc
      simp only [Nat.toDigitsCore] at hc
      split at hc
      · rcases List.mem_cons.mp hc with hc | hc
        · exact hc ▸ digitChar_ne_dot _
        · exact hacc c hc
      · refine ih (n / 10) (Nat.digitChar (n % 10) :: acc) ?_ c hc
        intro x hx
        rcases List.mem_cons.mp hx with hx | hx
        · exact hx ▸ digitChar_ne_dot _
        · exact hacc x hx

/-- The decimal rendering of a natural number contains no decimal point. -/
theorem repr_ne_dot (n : Nat) : ∀ c ∈ (Nat.repr n).data, c ≠ '.' :=
  toDigitsCore_ne_dot (n + 1) n [] (by intro c hc; cases hc)

/-- A character list avoiding the point does not contain it. -/
theorem contains_dot_eq_false (l : List Char) (h : ∀ c ∈ l, c ≠ '.') :
    l.contains '.' = false := by
  cases hc : l.contains '.' with
  | false => rfl
  | true =>
      obtain ⟨x, hx, hbeq⟩ := List.contains_iff_exists_mem_beq.mp hc
      exact absurd (beq_iff_eq.mp hbeq).symm (h x hx)

/-- Claim C8 (amended): `format_decimal` renders the exact decimal value of
the binary64 representation rounded to nearest (ties to even) at the given
precision; precision `0` emits no decimal point; trailing zero fractional
digits are stripped with at least one kept; the sign of an exact zero is
preserved; the default precision is `1`.  All repository fixtures are
reproduced, including the rounding fixtures the truncating reading fails. -/
theorem c8_format_decimal_rounds_amended :
    print_double ⟨false, 0, 0⟩ = "0.0" ∧
    print_double ⟨true, 0, 0⟩ = "-0.0" ∧
    format_decimal ⟨false, 3731714317174073, 44⟩ 4 = "212.1234" ∧
    format_decimal ⟨true, 2315632578189515, 39⟩ 0 = "-4212" ∧
    format_decimal dNeg4212_11 9 = "-4212.11" ∧
    format_decimal ⟨false, 8262652924119559, 26⟩ 8 = "123123123.11112224" ∧
    format_decimal ⟨true, 2315632578189515, 39⟩ 13 = "-4212.1111222322997" ∧
    format_decimal ⟨true, 6787157436263689, 39⟩ 12 = "-12345.767456761112" ∧
    (∀ d : DoubleRep, print_double d = format_decimal d 1) ∧
    (∀ d : DoubleRep, (format_decimal d 0).data.contains '.' = false) ∧
    (∀ (d : DoubleRep) (p : Nat), p ≠ 0 →
      (format_decimal d p).data.contains '.' = true) := by
  refine ⟨by decide, by decide, by decide, by decide, by decide, by decide,
    by decide, by decide, fun d => rfl, ?_, ?_⟩
  · intro d
    apply contains_dot_eq_false
    intro c hcm
    unfold format_decimal renderScaled at hcm
    rw [if_pos rfl] at hcm
    rw [String.data_append] at hcm
    rcases List.mem_append.mp hcm with hcm | hcm
    · cases hn : d.neg <;> rw [hn] at hcm
      · cases hcm
      · rcases List.mem_cons.mp hcm with hcm | hcm
        · exact hcm ▸ (by decide)
        · cases hcm
    · exact repr_ne_dot _ c hcm
  · intro d p hp
    rw [List.contains_iff_exists_mem_beq]
    refine ⟨'.', ?_, by decide⟩
    unfold format_decimal renderScaled
    rw [if_neg hp]
    simp [String.data_append, dot_data]

/-- Witness for claim C8: the quantified precision clause evaluated at the
`-4212.11` fixture and precision `9`. -/
theorem c8_format_decimal_rounds_amended_witness :
    (9 : Nat) ≠ 0 ∧
    (format_decimal dNeg4212_11 9).data.contains '.' = true :=
  ⟨by decide, (c8_format_decimal_rounds_amended).2.2.2.2.2.2.2.2.2.2
    dNeg4212_11 9 (by decide)⟩
